import Mathlib

/-
Shallow embedding of the TRON sweeper core (sweeper.py, config.py, app.py,
tron_client.py).  Balances are modelled as exact rationals, the blockchain
and the transfer stub as explicit environments, and exceptions as
Except String values.
-/

namespace TronSweeper

/-- Result of one successful transfer submission (the txid field of the
Python tx_result dictionary). -/
structure TxResult where
  txid : String
deriving DecidableEq, Repr

/-- Configuration snapshot, the fields of config.Config used by the sweep
engine (config.py lines 46-78). -/
structure Config where
  check_interval : Int
  min_transfer_amount : Rat
  max_retries : Nat
  retry_delay : Nat
  sweep_trx : Bool
  sweep_trc20 : Bool
deriving DecidableEq, Repr

/-- Embedding of TronClient.estimate_energy_cost (tron_client.py lines
259-271): 10 TRX for a token transfer, 0.5 TRX for a plain TRX transfer. -/
def estimate_energy_cost (is_token : Bool) : Rat :=
  if is_token then 10 else 1/2

/-- Embedding of TronSweeper._calculate_sweepable_trx_amount (sweeper.py
lines 73-105).  The fee estimate is estimate_energy_cost with its default
argument (a plain transfer); when reserve_for_tokens is set a reserve of
10 TRX per configured token contract is added to the fee. -/
def calculate_sweepable_trx_amount (cfg : Config) (token_contracts : List String)
    (current_balance : Rat) (reserve_for_tokens : Bool) : Rat :=
  let estimated_fee := estimate_energy_cost false
  let token_reserves : Rat :=
    if token_contracts.isEmpty then 0 else (token_contracts.length : Rat) * 10
  let estimated_fee :=
    if reserve_for_tokens then estimated_fee + token_reserves else estimated_fee
  let sweepable_amount := current_balance - estimated_fee
  if sweepable_amount < cfg.min_transfer_amount then 0
  else if sweepable_amount ≤ 0 then 0
  else sweepable_amount

/-- Reference definition of the sweepable amount, written from the spec
sentence: sweepable = balance minus fee, minus (when reserving for tokens)
a fixed 10-per-token reserve; zero when below the minimum or not
positive. -/
def sweepableSpec (balance fee minimum : Rat) (reserveForTokens : Bool)
    (tokenCount : Nat) : Rat :=
  let reserve : Rat := if reserveForTokens then (tokenCount : Rat) * 10 else 0
  let s := balance - fee - reserve
  if s < minimum then 0
  else if s ≤ 0 then 0
  else s

/-- Error message built for a failed attempt (sweeper.py line 157). -/
def attemptErrorMsg (attempt max_retries : Nat) (e : String) : String :=
  "Attempt " ++ toString attempt ++ "/" ++ toString max_retries ++ " failed: " ++ e

/-- Observable outcome of the retry loop: the returned transaction (if any
attempt succeeded), the accumulated error messages in attempt order, the
number of attempts made, and the total time spent in time.sleep calls. -/
structure RetryOutcome where
  result : Option TxResult
  errors : List String
  attemptsMade : Nat
  sleepTime : Nat
deriving DecidableEq, Repr

/-- Embedding of the retry loop body (sweeper.py lines 145-163): attempts
are numbered from the given attempt index while fuel remains; the first
success breaks out at once; a failure appends its message and, when the
attempt index is below max_retries, sleeps retry_delay seconds. -/
def retryAux (max_retries retry_delay : Nat) (stub : Nat → Except String TxResult) :
    Nat → Nat → RetryOutcome
  | _, 0 => ⟨none, [], 0, 0⟩
  | attempt, remaining + 1 =>
    match stub attempt with
    | .ok tx => ⟨some tx, [], 1, 0⟩
    | .error e =>
      let msg := attemptErrorMsg attempt max_retries e
      let slept := if attempt < max_retries then retry_delay else 0
      let rest := retryAux max_retries retry_delay stub (attempt + 1) remaining
      { result := rest.result
        errors := msg :: rest.errors
        attemptsMade := rest.attemptsMade + 1
        sleepTime := slept + rest.sleepTime }

/-- Embedding of the whole retry loop, for attempt in range(1, max_retries + 1)
(sweeper.py line 145 and line 266). -/
def retryTransfer (max_retries retry_delay : Nat)
    (stub : Nat → Except String TxResult) : RetryOutcome :=
  retryAux max_retries retry_delay stub 1 max_retries

/-- Environment of one check_and_sweep_trx call: the first balance query
(which may raise), the balance re-queried by the finally block (which may
also raise: get_account_balance catches, logs and re-raises,
tron_client.py lines 193-197), and the transfer stub indexed by attempt
number. -/
structure TrxEnv where
  query : Except String Rat
  finalQuery : Except String Rat
  transfer : Nat → Except String TxResult

/-- Observable outcome of check_and_sweep_trx: the Python return value, the
new cached last_trx_balance, and the retry-loop observables. -/
structure TrxSweepResult where
  result : Option TxResult
  new_last : Rat
  attempts : Nat
  sleepTime : Nat
  errors : List String
deriving DecidableEq, Repr

/-- Body of TronSweeper.check_and_sweep_trx (sweeper.py lines 107-177),
given the value fin produced by the finally-block re-query.  A failed
first query is caught by the outer except and yields None.  When the
balance has not increased the function returns None.  Otherwise the
sweepable amount is computed with a reserve exactly when sweep_trc20 is
set and the contract list is nonempty, and a positive sweepable amount
triggers the retry loop; if no attempt succeeds the function returns
None. -/
def check_and_sweep_trx_body (cfg : Config) (token_contracts : List String)
    (last_trx_balance : Rat) (env : TrxEnv) (fin : Rat) : TrxSweepResult :=
  match env.query with
  | .error _ => ⟨none, fin, 0, 0, []⟩
  | .ok current_balance =>
    if current_balance ≤ last_trx_balance then
      ⟨none, fin, 0, 0, []⟩
    else
      let need_reserve := cfg.sweep_trc20 && !token_contracts.isEmpty
      let sweepable_amount :=
        calculate_sweepable_trx_amount cfg token_contracts current_balance need_reserve
      if 0 < sweepable_amount then
        let r := retryTransfer cfg.max_retries cfg.retry_delay env.transfer
        ⟨r.result, fin, r.attemptsMade, r.sleepTime, r.errors⟩
      else
        ⟨none, fin, 0, 0, []⟩

/-- Embedding of TronSweeper.check_and_sweep_trx (sweeper.py lines
107-180).  Every exit path runs the finally block, which re-queries the
balance and stores it as the new last_trx_balance; if that re-query raises
(get_account_balance re-raises, tron_client.py lines 193-197), the
exception escapes the function, replacing any pending return value or
exception of the body.  Otherwise the body's result is returned with the
cache set to the re-queried value. -/
def check_and_sweep_trx (cfg : Config) (token_contracts : List String)
    (last_trx_balance : Rat) (env : TrxEnv) : Except String TrxSweepResult :=
  match env.finalQuery with
  | .error e => .error e
  | .ok fin => .ok (check_and_sweep_trx_body cfg token_contracts last_trx_balance env fin)

/-- Token configuration row as loaded from the TokenConfig database table
(app.py, models): the enabled flag and the optional per-token minimum. -/
structure TokenCfgRow where
  enabled : Bool
  min_amount : Option Rat
deriving DecidableEq, Repr

/-- Environment of one token check: the get_token_info call (may raise,
yields the symbol), the get_token_balance call (may raise), and the
transfer stub indexed by attempt number. -/
structure TokenEnv where
  infoQuery : Except String String
  balanceQuery : Except String Rat
  transfer : Nat → Except String TxResult

/-- Observable outcome of the per-token body of check_and_sweep_tokens: the
appended transaction (if any attempt succeeded), the balance written to
token_balances (none when the body leaves the cache untouched), and the
number of transfer attempts. -/
structure TokenStepResult where
  result : Option TxResult
  newBal : Option Rat
  attempts : Nat
deriving DecidableEq, Repr

/-- Embedding of the loop body of TronSweeper.check_and_sweep_tokens for one
contract (sweeper.py lines 227-295).  A disabled row is skipped; an
exception from get_token_info or get_token_balance is caught by the
per-token except and the body moves on without touching the cache; a
balance that has not increased is skipped without touching the cache;
otherwise the cache is set to the current balance after the (possibly
empty, possibly all-failing) transfer attempts, which run only when the
current balance exceeds the applicable minimum. -/
def processTokenActive (cfg : Config) (row : Option TokenCfgRow) (env : TokenEnv)
    (last_balance : Rat) : TokenStepResult :=
  match env.infoQuery with
  | .error _ => ⟨none, none, 0⟩
  | .ok _symbol =>
    match env.balanceQuery with
    | .error _ => ⟨none, none, 0⟩
    | .ok current_balance =>
      if current_balance ≤ last_balance then ⟨none, none, 0⟩
      else
        let min_transfer : Rat :=
          match row with
          | some r => r.min_amount.getD 0
          | none => 0
        if min_transfer < current_balance then
          let r := retryTransfer cfg.max_retries cfg.retry_delay env.transfer
          ⟨r.result, some current_balance, r.attemptsMade⟩
        else
          ⟨none, some current_balance, 0⟩

/-- Per-token body including the disabled-row skip at the top of the loop
(sweeper.py lines 229-232). -/
def processToken (cfg : Config) (row : Option TokenCfgRow) (env : TokenEnv)
    (last_balance : Rat) : TokenStepResult :=
  match row with
  | some r =>
    if !r.enabled then ⟨none, none, 0⟩
    else processTokenActive cfg row env last_balance
  | none => processTokenActive cfg row env last_balance

/-- Cached token balances, keyed by contract address; a missing key reads
as 0 (token_balances.get(contract_address, 0)). -/
def getBal (m : List (String × Rat)) (k : String) : Rat :=
  (m.lookup k).getD 0

/-- Dictionary write token_balances[k] = v, modelled as a shadowing cons. -/
def setBal (m : List (String × Rat)) (k : String) (v : Rat) : List (String × Rat) :=
  (k, v) :: m

/-- Sequential fold over the configured contract list (sweeper.py line 227):
each contract is processed with its own environment and the cache state
left by the earlier contracts. -/
def sweepTokensGo (cfg : Config) (rows : String → Option TokenCfgRow)
    (envOf : String → TokenEnv) :
    List String → List (String × Rat) → List TxResult × List (String × Rat)
  | [], bal => ([], bal)
  | t :: rest, bal =>
    let step := processToken cfg (rows t) (envOf t) (getBal bal t)
    let bal2 := match step.newBal with
      | some c => setBal bal t c
      | none => bal
    let res := sweepTokensGo cfg rows envOf rest bal2
    (step.result.toList ++ res.1, res.2)

/-- Embedding of TronSweeper.check_and_sweep_tokens (sweeper.py lines
182-297): returns immediately when sweep_trc20 is off or no contract is
configured, otherwise folds over the contracts in list order. -/
def check_and_sweep_tokens (cfg : Config) (token_contracts : List String)
    (rows : String → Option TokenCfgRow) (envOf : String → TokenEnv)
    (token_balances : List (String × Rat)) : List TxResult × List (String × Rat) :=
  if !cfg.sweep_trc20 then ([], token_balances)
  else if token_contracts.isEmpty then ([], token_balances)
  else sweepTokensGo cfg rows envOf token_contracts token_balances

/-- Return value of TronSweeper.check_and_sweep (sweeper.py lines 321-327):
None when the results list is empty, the lone element when it has exactly
one, the list itself otherwise. -/
inductive SweepReturn where
  | noResult : SweepReturn
  | single : TxResult → SweepReturn
  | multiple : List TxResult → SweepReturn
deriving DecidableEq, Repr

/-- Shaping of the internal results list into the Python return value. -/
def listToSweepReturn : List TxResult → SweepReturn
  | [] => .noResult
  | [t] => .single t
  | ts => .multiple ts

/-- Observable outcome of one check_and_sweep cycle: the internal ordered
results list, the shaped return value, and the new cached balances. -/
structure CycleResult where
  results : List TxResult
  ret : SweepReturn
  new_last_trx : Rat
  new_token_balances : List (String × Rat)
deriving DecidableEq, Repr

/-- Embedding of TronSweeper.check_and_sweep (sweeper.py lines 299-327):
first the TRX check when sweep_trx is set, then the token checks when
sweep_trc20 is set, appending successful outcomes in that order.  The
function has no try/except: an exception escaping check_and_sweep_trx
(one raised by its finally-block re-query) propagates and aborts the
cycle before any token is checked.  The token pass itself cannot raise:
every per-token body is wrapped in its own except (sweeper.py line 294). -/
def check_and_sweep (cfg : Config) (token_contracts : List String)
    (rows : String → Option TokenCfgRow) (trxEnv : TrxEnv)
    (envOf : String → TokenEnv) (last_trx_balance : Rat)
    (token_balances : List (String × Rat)) : Except String CycleResult :=
  match (if cfg.sweep_trx then
          check_and_sweep_trx cfg token_contracts last_trx_balance trxEnv
        else .ok ⟨none, last_trx_balance, 0, 0, []⟩) with
  | .error e => .error e
  | .ok r =>
    let tokenPart := check_and_sweep_tokens cfg token_contracts rows envOf token_balances
    let results := r.result.toList ++ tokenPart.1
    .ok { results := results
          ret := listToSweepReturn results
          new_last_trx := r.new_last
          new_token_balances := tokenPart.2 }

/-- Run-controller state of app.py: the bot_running flag and the
bot_status message (module globals, app.py lines 51-53). -/
structure BotState where
  running : Bool
  status : String
deriving DecidableEq, Repr

/-- Embedding of app.start_bot (app.py lines 72-95).  The hasConfig flag
stands for the BotConfig query returning a row.  Already running: fail and
change nothing.  No configuration: record the failure status and fail.
Otherwise mark Starting and spawn the loop. -/
def start_bot (hasConfig : Bool) (s : BotState) : Bool × BotState :=
  if s.running then (false, s)
  else if !hasConfig then
    (false, { running := false, status := "No configuration found" })
  else
    (true, { running := true, status := "Starting..." })

/-- Embedding of app.stop_bot (app.py lines 97-103): fails when not
running, otherwise clears the running flag and records Stopping. -/
def stop_bot (s : BotState) : Bool × BotState :=
  if !s.running then (false, s)
  else (true, { running := false, status := "Stopping..." })

/-- Embedding of the operation-settings validation in Config.__init__
(config.py lines 51-78), over already-parsed numeric inputs.  Each range
violation raises inside its try block and the except re-raises, so the
surfaced message is the outer one; the checks run in source order. -/
def validateConfig (check_interval : Int) (min_transfer_amount : Rat)
    (max_retries : Int) (retry_delay : Int) (sweep_trx sweep_trc20 : Bool) :
    Except String Config :=
  if check_interval < 1 then .error "check_interval must be a valid integer"
  else if min_transfer_amount < 0 then .error "min_transfer_amount must be a valid number"
  else if max_retries < 0 then .error "max_retries must be a valid integer"
  else if retry_delay < 1 then .error "retry_delay must be a valid integer"
  else .ok
    { check_interval := check_interval
      min_transfer_amount := min_transfer_amount
      max_retries := max_retries.toNat
      retry_delay := retry_delay.toNat
      sweep_trx := sweep_trx
      sweep_trc20 := sweep_trc20 }

/-- Boolean success of a validation result. -/
def validationOk (e : Except String Config) : Bool :=
  match e with
  | .ok _ => true
  | .error _ => false

/- Helper lemmas -/

/-- Congruence for the final guard of the sweepable-amount calculator. -/
theorem guardEq (a b m : Rat) (h : a = b) :
    (if a < m then (0 : Rat) else if a ≤ 0 then 0 else a)
      = (if b < m then 0 else if b ≤ 0 then 0 else b) := by
  rw [h]

/-- C1: the sweepable-amount calculator agrees with the reference
definition (balance minus the 0.5 fee, minus a 10-per-token reserve when
reserving for tokens, clamped to 0 below the minimum or when not
positive), and the three concrete examples of the spec hold. -/
theorem sweepable_amount_matches_spec :
    (∀ (cfg : Config) (tcs : List String) (B : Rat) (resv : Bool),
        calculate_sweepable_trx_amount cfg tcs B resv
          = sweepableSpec B (1/2) cfg.min_transfer_amount resv tcs.length)
    ∧ calculate_sweepable_trx_amount ⟨30, 1, 3, 5, true, false⟩ [] 100 false = 199/2
    ∧ calculate_sweepable_trx_amount ⟨30, 0, 3, 5, true, false⟩ [] (3/10) false = 0
    ∧ calculate_sweepable_trx_amount ⟨30, 10, 3, 5, true, true⟩ ["a", "b"] 50 true = 59/2 := by
  refine ⟨?_, ?_, ?_, ?_⟩
  · intro cfg tcs B resv
    unfold calculate_sweepable_trx_amount sweepableSpec estimate_energy_cost
    dsimp only
    apply guardEq
    cases resv with
    | false => simp
    | true =>
      cases tcs with
      | nil => simp
      | cons t ts => simp; ring
  · norm_num [calculate_sweepable_trx_amount, estimate_energy_cost]
  · norm_num [calculate_sweepable_trx_amount, estimate_energy_cost]
  · norm_num [calculate_sweepable_trx_amount, estimate_energy_cost]

/-- C9: validating the operation settings succeeds exactly when the check
interval is at least 1, the minimum transfer amount is nonnegative, the
max retry count is nonnegative and the retry delay is at least 1; on
success the produced configuration carries exactly the supplied values. -/
theorem config_validation_exact :
    ∀ (ci : Int) (m : Rat) (mr rd : Int) (b1 b2 : Bool),
      (validationOk (validateConfig ci m mr rd b1 b2) = true
        ↔ (1 ≤ ci ∧ 0 ≤ m ∧ 0 ≤ mr ∧ 1 ≤ rd))
      ∧ (∀ cfg, validateConfig ci m mr rd b1 b2 = .ok cfg →
          cfg.check_interval = ci ∧ cfg.min_transfer_amount = m
            ∧ (cfg.max_retries : Int) = mr ∧ (cfg.retry_delay : Int) = rd
            ∧ cfg.sweep_trx = b1 ∧ cfg.sweep_trc20 = b2) := by
  intro ci m mr rd b1 b2
  unfold validateConfig
  split_ifs with h1 h2 h3 h4 <;>
    refine ⟨?_, ?_⟩ <;>
    simp_all [validationOk] <;>
    omega

/-- C9 witness: a concrete in-range input validates and a concrete
out-of-range input is rejected. -/
theorem config_validation_exact_witness :
    validationOk (validateConfig 30 0 3 5 true false) = true
    ∧ validationOk (validateConfig 0 0 3 5 true false) = false := by
  constructor
  · exact (config_validation_exact 30 0 3 5 true false).1.mpr (by norm_num)
  · have h := (config_validation_exact 0 0 3 5 true false).1
    cases hv : validationOk (validateConfig 0 0 3 5 true false) with
    | false => rfl
    | true => exact absurd ((h.mp hv).1) (by norm_num)

/-- C8: the run controller accepts start only from the stopped state with a
configuration present; a start while running fails and changes nothing; a
start without configuration fails and leaves the engine stopped; a stop
while stopped fails and changes nothing; a second consecutive start fails
while the engine keeps running. -/
theorem run_controller_start_stop :
    (∀ (hc : Bool) (s : BotState), s.running = true → start_bot hc s = (false, s))
    ∧ (∀ s : BotState, s.running = false →
        start_bot false s = (false, ⟨false, "No configuration found"⟩))
    ∧ (∀ s : BotState, s.running = false →
        start_bot true s = (true, ⟨true, "Starting..."⟩))
    ∧ (∀ s : BotState, s.running = false → stop_bot s = (false, s))
    ∧ (∀ s : BotState, s.running = true →
        stop_bot s = (true, ⟨false, "Stopping..."⟩))
    ∧ (∀ s : BotState, s.running = false →
        (start_bot true ((start_bot true s).2)).1 = false
        ∧ ((start_bot true ((start_bot true s).2)).2).running = true) := by
  refine ⟨?_, ?_, ?_, ?_, ?_, ?_⟩ <;>
    intro
  · intro s h; simp [start_bot, h]
  · intro h; simp [start_bot, h]
  · intro h; simp [start_bot, h]
  · intro h; simp [stop_bot, h]
  · intro h; simp [stop_bot, h]
  · intro h; simp [start_bot, h]

/-- C8 witness: from the concrete stopped state, a start succeeds, a second
start fails while still running, and a stop from stopped fails. -/
theorem run_controller_start_stop_witness :
    (start_bot true ⟨false, "Stopped"⟩ = (true, ⟨true, "Starting..."⟩))
    ∧ (start_bot true ((start_bot true ⟨false, "Stopped"⟩).2)).1 = false
    ∧ ((start_bot true ((start_bot true ⟨false, "Stopped"⟩).2)).2).running = true
    ∧ stop_bot ⟨false, "Stopped"⟩ = (false, ⟨false, "Stopped"⟩) := by
  refine ⟨?_, ?_, ?_, ?_⟩
  · exact run_controller_start_stop.2.2.1 ⟨false, "Stopped"⟩ rfl
  · exact (run_controller_start_stop.2.2.2.2.2 ⟨false, "Stopped"⟩ rfl).1
  · exact (run_controller_start_stop.2.2.2.2.2 ⟨false, "Stopped"⟩ rfl).2
  · exact run_controller_start_stop.2.2.2.1 ⟨false, "Stopped"⟩ rfl

/-- Retry loop bound: the loop makes at most as many attempts as it has
fuel. -/
theorem retryAux_attempts_le (mr d : Nat) (stub : Nat → Except String TxResult) :
    ∀ (remaining a : Nat), (retryAux mr d stub a remaining).attemptsMade ≤ remaining := by
  intro remaining
  induction remaining with
  | zero => intro a; simp [retryAux]
  | succ n ih =>
    intro a
    unfold retryAux
    cases stub a with
    | ok tx => simp
    | error e => simpa using Nat.succ_le_succ (ih (a + 1))

/-- Retry loop, first success at attempt k: starting from attempt a with
the matching fuel, when every attempt before k fails and attempt k
succeeds, the loop returns the success, makes k + 1 - a attempts, and
sleeps (k - a) times retry_delay. -/
theorem retryAux_first_success (mr d : Nat) (stub : Nat → Except String TxResult)
    (t : TxResult) (k : Nat) :
    ∀ (remaining a : Nat), a + remaining = mr + 1 → a ≤ k → k ≤ mr →
      (∀ i, a ≤ i → i < k → ∃ e, stub i = Except.error e) →
      stub k = Except.ok t →
      (retryAux mr d stub a remaining).result = some t
      ∧ (retryAux mr d stub a remaining).attemptsMade = k + 1 - a
      ∧ (retryAux mr d stub a remaining).sleepTime = (k - a) * d := by
  intro remaining
  induction remaining with
  | zero => intro a ha hak hkm hfail hsucc; omega
  | succ n ih =>
    intro a ha hak hkm hfail hsucc
    by_cases hcase : a = k
    · subst hcase
      unfold retryAux
      rw [hsucc]
      refine ⟨rfl, ?_, ?_⟩
      · show 1 = a + 1 - a
        omega
      · show 0 = (a - a) * d
        simp
    · have halt : a < k := lt_of_le_of_ne hak hcase
      obtain ⟨e, he⟩ := hfail a le_rfl halt
      have hrest := ih (a + 1) (by omega) (by omega) hkm
        (fun i hi1 hi2 => hfail i (by omega) hi2) hsucc
      unfold retryAux
      rw [he]
      have hsl : a < mr := by omega
      simp only [hsl, if_pos]
      refine ⟨hrest.1, by rw [hrest.2.1]; omega, ?_⟩
      rw [hrest.2.2]
      have hk : k - a = (k - (a + 1)) + 1 := by omega
      rw [hk]
      ring

/-- Retry loop, every attempt failing: the loop returns none, records one
formatted message per attempt in attempt order, and sleeps after every
attempt except the last. -/
theorem retryAux_all_fail (mr d : Nat) (stub : Nat → Except String TxResult)
    (em : Nat → String) :
    ∀ (remaining a : Nat), a + remaining = mr + 1 →
      (∀ i, a ≤ i → i ≤ mr → stub i = Except.error (em i)) →
      retryAux mr d stub a remaining
        = ⟨none, (List.range remaining).map (fun j => attemptErrorMsg (a + j) mr (em (a + j))),
            remaining, (remaining - 1) * d⟩ := by
  intro remaining
  induction remaining with
  | zero => intro a ha hf; simp [retryAux]
  | succ n ih =>
    intro a ha hf
    have hae : stub a = Except.error (em a) := hf a le_rfl (by omega)
    unfold retryAux
    rw [hae]
    have hrest := ih (a + 1) (by omega) (fun i hi1 hi2 => hf i (by omega) hi2)
    rw [hrest]
    simp only
    have herr : attemptErrorMsg a mr (em a)
          :: (List.range n).map (fun j => attemptErrorMsg (a + 1 + j) mr (em (a + 1 + j)))
        = (List.range (n + 1)).map (fun j => attemptErrorMsg (a + j) mr (em (a + j))) := by
      rw [List.range_succ_eq_map, List.map_cons, List.map_map]
      simp only [Nat.add_zero]
      refine congrArg₂ _ rfl ?_
      apply List.map_congr_left
      intro j _
      simp only [Function.comp]
      have : a + (j + 1) = a + 1 + j := by omega
      rw [this]
    rw [herr]
    cases n with
    | zero =>
      have : ¬ a < mr := by omega
      simp [this]
    | succ m =>
      have hlt : a < mr := by omega
      rw [if_pos hlt]
      rw [show d + (m + 1 - 1) * d = (m + 1 + 1 - 1) * d from by
        simp only [Nat.add_sub_cancel]
        ring]

/-- C2: the transfer orchestrator makes at most max_retries sequential
attempts; when the first success is at attempt k (with k at most
max_retries), exactly k attempts occur, that success is returned, and the
loop slept retry_delay exactly between consecutive attempts, hence k - 1
times, never after the last attempt. -/
theorem retry_orchestrator_first_success :
    (∀ (mr d : Nat) (stub : Nat → Except String TxResult),
        (retryTransfer mr d stub).attemptsMade ≤ mr)
    ∧ (∀ (mr d : Nat) (stub : Nat → Except String TxResult) (t : TxResult) (k : Nat),
        1 ≤ k → k ≤ mr →
        (∀ i, 1 ≤ i → i < k → ∃ e, stub i = Except.error e) →
        stub k = Except.ok t →
        (retryTransfer mr d stub).result = some t
        ∧ (retryTransfer mr d stub).attemptsMade = k
        ∧ (retryTransfer mr d stub).sleepTime = (k - 1) * d) := by
  constructor
  · intro mr d stub
    exact retryAux_attempts_le mr d stub mr 1
  · intro mr d stub t k hk1 hkm hfail hsucc
    have h := retryAux_first_success mr d stub t k mr 1 (by omega) hk1 hkm hfail hsucc
    unfold retryTransfer
    refine ⟨h.1, ?_, h.2.2⟩
    rw [h.2.1]
    omega

/-- C2 witness: a stub failing on attempts 1 and 2 and succeeding on
attempt 3 under max_retries 3 and retry_delay 5 yields exactly 3 attempts,
the success, and 10 seconds of waiting. -/
theorem retry_orchestrator_first_success_witness :
    (retryTransfer 3 5 (fun i => if i ≤ 2 then .error "boom" else .ok ⟨"tx"⟩)).result
        = some ⟨"tx"⟩
    ∧ (retryTransfer 3 5 (fun i => if i ≤ 2 then .error "boom" else .ok ⟨"tx"⟩)).attemptsMade = 3
    ∧ (retryTransfer 3 5 (fun i => if i ≤ 2 then .error "boom" else .ok ⟨"tx"⟩)).sleepTime
        = (3 - 1) * 5 :=
  retry_orchestrator_first_success.2 3 5
    (fun i => if i ≤ 2 then .error "boom" else .ok ⟨"tx"⟩) ⟨"tx"⟩ 3
    (by omega) (by omega)
    (fun i h1 h2 => ⟨"boom", by
      have hi : i ≤ 2 := by omega
      simp [hi]⟩)
    (by simp)

/-- Whole retry loop with every attempt failing. -/
theorem retryTransfer_all_fail (mr d : Nat) (stub : Nat → Except String TxResult)
    (em : Nat → String) (hf : ∀ i, 1 ≤ i → i ≤ mr → stub i = Except.error (em i)) :
    retryTransfer mr d stub
      = ⟨none, (List.range mr).map (fun j => attemptErrorMsg (1 + j) mr (em (1 + j))),
          mr, (mr - 1) * d⟩ :=
  retryAux_all_fail mr d stub em mr 1 (by omega) hf

/-- Path lemma (body): a balance that has not increased yields the
no-sweep result, with the cache set to the re-queried balance. -/
theorem check_and_sweep_trx_body_no_increase (cfg : Config) (tcs : List String)
    (last : Rat) (env : TrxEnv) (fin c : Rat)
    (hq : env.query = Except.ok c) (hle : c ≤ last) :
    check_and_sweep_trx_body cfg tcs last env fin = ⟨none, fin, 0, 0, []⟩ := by
  unfold check_and_sweep_trx_body
  simp only [hq]
  rw [if_pos hle]

/-- Path lemma: when the finally re-query succeeds, a balance that has not
increased yields the no-sweep result with the cache set to the re-queried
balance. -/
theorem check_and_sweep_trx_no_increase (cfg : Config) (tcs : List String)
    (last : Rat) (env : TrxEnv) (fin c : Rat)
    (hq : env.query = Except.ok c) (hle : c ≤ last)
    (hfin : env.finalQuery = Except.ok fin) :
    check_and_sweep_trx cfg tcs last env = Except.ok ⟨none, fin, 0, 0, []⟩ := by
  unfold check_and_sweep_trx
  simp only [hfin]
  rw [check_and_sweep_trx_body_no_increase cfg tcs last env fin c hq hle]

/-- Path lemma (body): an increased balance with a positive sweepable
amount runs the retry loop and reports its observables, with the cache
set to the re-queried balance. -/
theorem check_and_sweep_trx_body_increase (cfg : Config) (tcs : List String)
    (last : Rat) (env : TrxEnv) (fin c : Rat)
    (hq : env.query = Except.ok c) (hlt : last < c)
    (hsw : 0 < calculate_sweepable_trx_amount cfg tcs c (cfg.sweep_trc20 && !tcs.isEmpty)) :
    check_and_sweep_trx_body cfg tcs last env fin
      = ⟨(retryTransfer cfg.max_retries cfg.retry_delay env.transfer).result,
          fin,
          (retryTransfer cfg.max_retries cfg.retry_delay env.transfer).attemptsMade,
          (retryTransfer cfg.max_retries cfg.retry_delay env.transfer).sleepTime,
          (retryTransfer cfg.max_retries cfg.retry_delay env.transfer).errors⟩ := by
  unfold check_and_sweep_trx_body
  simp only [hq]
  rw [if_neg (not_le.mpr hlt)]
  rw [if_pos hsw]

/-- Path lemma: when the finally re-query succeeds, an increased balance
with a positive sweepable amount runs the retry loop and reports its
observables. -/
theorem check_and_sweep_trx_increase (cfg : Config) (tcs : List String)
    (last : Rat) (env : TrxEnv) (fin c : Rat)
    (hq : env.query = Except.ok c) (hlt : last < c)
    (hsw : 0 < calculate_sweepable_trx_amount cfg tcs c (cfg.sweep_trc20 && !tcs.isEmpty))
    (hfin : env.finalQuery = Except.ok fin) :
    check_and_sweep_trx cfg tcs last env
      = Except.ok ⟨(retryTransfer cfg.max_retries cfg.retry_delay env.transfer).result,
          fin,
          (retryTransfer cfg.max_retries cfg.retry_delay env.transfer).attemptsMade,
          (retryTransfer cfg.max_retries cfg.retry_delay env.transfer).sleepTime,
          (retryTransfer cfg.max_retries cfg.retry_delay env.transfer).errors⟩ := by
  unfold check_and_sweep_trx
  simp only [hfin]
  rw [check_and_sweep_trx_body_increase cfg tcs last env fin c hq hlt hsw]

/-- Path lemma: a raising finally re-query escapes check_and_sweep_trx as
that exception, whatever the body did. -/
theorem check_and_sweep_trx_final_raises (cfg : Config) (tcs : List String)
    (last : Rat) (env : TrxEnv) (e : String)
    (hfin : env.finalQuery = Except.error e) :
    check_and_sweep_trx cfg tcs last env = Except.error e := by
  unfold check_and_sweep_trx
  simp only [hfin]

/-- Path lemma (body): with a zero max retry count the TRX check body
never transfers, on every path. -/
theorem check_and_sweep_trx_body_zero_retries (cfg : Config) (tcs : List String)
    (last : Rat) (env : TrxEnv) (fin : Rat) (h : cfg.max_retries = 0) :
    check_and_sweep_trx_body cfg tcs last env fin = ⟨none, fin, 0, 0, []⟩ := by
  cases hq : env.query with
  | error e =>
    unfold check_and_sweep_trx_body
    simp only [hq]
  | ok c =>
    unfold check_and_sweep_trx_body
    simp only [hq]
    by_cases hle : c ≤ last
    · rw [if_pos hle]
    · rw [if_neg hle]
      rw [h]
      split
      · rfl
      · rfl

/-- Path lemma: with a zero max retry count and a succeeding finally
re-query the TRX check never transfers, on every path. -/
theorem check_and_sweep_trx_zero_retries (cfg : Config) (tcs : List String)
    (last : Rat) (env : TrxEnv) (fin : Rat) (h : cfg.max_retries = 0)
    (hfin : env.finalQuery = Except.ok fin) :
    check_and_sweep_trx cfg tcs last env = Except.ok ⟨none, fin, 0, 0, []⟩ := by
  unfold check_and_sweep_trx
  simp only [hfin]
  rw [check_and_sweep_trx_body_zero_retries cfg tcs last env fin h]

/-- Enabled test of an optional token-configuration row; a missing row
counts as enabled (the code only skips a present, disabled row). -/
def rowEnabled : Option TokenCfgRow → Bool
  | none => true
  | some r => r.enabled

/-- C5 counterexample: with a stub that always fails and max_retries 2,
exactly 2 attempts occur and both formatted error messages land in the
internal log, yet the function completes normally returning None (the
record's result field, the Python return value, is none): no failure
value carrying the messages is returned. -/
theorem all_fail_returns_none_counterexample :
    check_and_sweep_trx ⟨30, 1, 2, 5, true, false⟩ [] 0
        ⟨Except.ok 100, Except.ok 100, fun _ => Except.error "net"⟩
      = Except.ok ⟨none, 100, 2, 5,
          [attemptErrorMsg 1 2 "net", attemptErrorMsg 2 2 "net"]⟩ := by
  rw [check_and_sweep_trx_increase ⟨30, 1, 2, 5, true, false⟩ [] 0
    ⟨Except.ok 100, Except.ok 100, fun _ => Except.error "net"⟩ 100 100 rfl (by norm_num)
    (by norm_num [calculate_sweepable_trx_amount, estimate_energy_cost]) rfl]
  rw [retryTransfer_all_fail 2 5 (fun _ => Except.error "net") (fun _ => "net")
    (fun i h1 h2 => rfl)]
  norm_num [List.range_succ]

/-- C5 amended: when every one of the max_retries attempts fails (and the
finally re-query succeeds), exactly max_retries attempts occur and an
internal log aggregates every attempt's formatted error message in attempt
order (the messages are joined and logged), but the operation returns None
rather than a failure value. -/
theorem all_attempts_fail_behaviour :
    ∀ (cfg : Config) (tcs : List String) (last : Rat) (env : TrxEnv) (fin c : Rat)
      (em : Nat → String),
      env.query = Except.ok c → last < c →
      0 < calculate_sweepable_trx_amount cfg tcs c (cfg.sweep_trc20 && !tcs.isEmpty) →
      env.finalQuery = Except.ok fin →
      (∀ i, 1 ≤ i → i ≤ cfg.max_retries → env.transfer i = Except.error (em i)) →
      check_and_sweep_trx cfg tcs last env
        = Except.ok ⟨none, fin, cfg.max_retries,
            (cfg.max_retries - 1) * cfg.retry_delay,
            (List.range cfg.max_retries).map
              (fun j => attemptErrorMsg (1 + j) cfg.max_retries (em (1 + j)))⟩
      ∧ ((List.range cfg.max_retries).map
            (fun j => attemptErrorMsg (1 + j) cfg.max_retries (em (1 + j)))).length
          = cfg.max_retries := by
  intro cfg tcs last env fin c em hq hlt hsw hfin hf
  rw [check_and_sweep_trx_increase cfg tcs last env fin c hq hlt hsw hfin,
    retryTransfer_all_fail cfg.max_retries cfg.retry_delay env.transfer em hf]
  exact ⟨rfl, by simp⟩

/-- C5 witness: the amended statement evaluated for an always-failing stub
with max_retries 2. -/
theorem all_attempts_fail_behaviour_witness :
    check_and_sweep_trx ⟨30, 1, 2, 5, true, false⟩ [] 0
        ⟨Except.ok 100, Except.ok 100, fun _ => Except.error "down"⟩
      = Except.ok ⟨none, 100, 2, (2 - 1) * 5,
          (List.range 2).map (fun j => attemptErrorMsg (1 + j) 2 "down")⟩
    ∧ ((List.range 2).map (fun j => attemptErrorMsg (1 + j) 2 "down")).length = 2 :=
  all_attempts_fail_behaviour ⟨30, 1, 2, 5, true, false⟩ [] 0
    ⟨Except.ok 100, Except.ok 100, fun _ => Except.error "down"⟩ 100 100 (fun _ => "down")
    rfl (by norm_num)
    (by norm_num [calculate_sweepable_trx_amount, estimate_energy_cost])
    rfl (fun i h1 h2 => rfl)

/-- Path lemma: a token balance that has not increased is skipped without
touching the cache. -/
theorem processToken_no_increase (cfg : Config) (row : Option TokenCfgRow)
    (env : TokenEnv) (last c : Rat)
    (hb : env.balanceQuery = Except.ok c) (hle : c ≤ last) :
    processToken cfg row env last = ⟨none, none, 0⟩ := by
  have hact : processTokenActive cfg row env last = ⟨none, none, 0⟩ := by
    unfold processTokenActive
    cases hi : env.infoQuery with
    | error e => rfl
    | ok s =>
      simp only [hb]
      rw [if_pos hle]
  unfold processToken
  cases row with
  | none => exact hact
  | some r =>
    cases hr : r.enabled with
    | false => simp [hr]
    | true => simpa [hr] using hact

/-- Path lemma: an increased token balance on an enabled (or absent) row
always writes the current balance to the cache, whatever the transfer
attempts do. -/
theorem processToken_increase_newBal (cfg : Config) (row : Option TokenCfgRow)
    (env : TokenEnv) (last c : Rat) (s : String)
    (hi : env.infoQuery = Except.ok s) (hb : env.balanceQuery = Except.ok c)
    (hlt : last < c) (hen : rowEnabled row = true) :
    (processToken cfg row env last).newBal = some c := by
  have hact : (processTokenActive cfg row env last).newBal = some c := by
    unfold processTokenActive
    simp only [hi, hb]
    rw [if_neg (not_le.mpr hlt)]
    split
    · rfl
    · rfl
  unfold processToken
  cases row with
  | none => exact hact
  | some r =>
    have hr : r.enabled = true := by simpa [rowEnabled] using hen
    simpa [hr] using hact

/-- Path lemma: an increased token balance on an enabled (or absent) row
with every transfer attempt failing yields no outcome and still writes the
current balance to the cache. -/
theorem processToken_increase_all_fail (cfg : Config) (row : Option TokenCfgRow)
    (env : TokenEnv) (last c : Rat) (s : String) (em : Nat → String)
    (hi : env.infoQuery = Except.ok s) (hb : env.balanceQuery = Except.ok c)
    (hlt : last < c) (hen : rowEnabled row = true)
    (hf : ∀ i, 1 ≤ i → i ≤ cfg.max_retries → env.transfer i = Except.error (em i)) :
    (processToken cfg row env last).result = none
    ∧ (processToken cfg row env last).newBal = some c := by
  have hact : (processTokenActive cfg row env last).result = none
      ∧ (processTokenActive cfg row env last).newBal = some c := by
    unfold processTokenActive
    simp only [hi, hb]
    rw [if_neg (not_le.mpr hlt)]
    split
    · rw [retryTransfer_all_fail cfg.max_retries cfg.retry_delay env.transfer em hf]
      exact ⟨rfl, rfl⟩
    · exact ⟨rfl, rfl⟩
  unfold processToken
  cases row with
  | none => exact hact
  | some r =>
    have hr : r.enabled = true := by simpa [rowEnabled] using hen
    simpa [hr] using hact

/-- C3 counterexample: with last-known balance 1, fresh balance 40 and a
transfer stub that fails on both allowed attempts, every attempt fails yet
the cached balance is advanced to 40 (the finally block re-queries and
stores it, 40 and not the old 1), so the increase would not be detected
again. -/
theorem failed_sweep_cache_counterexample :
    check_and_sweep_trx ⟨30, 1, 2, 5, true, false⟩ [] 1
        ⟨Except.ok 40, Except.ok 40, fun _ => Except.error "timeout"⟩
      = Except.ok ⟨none, 40, 2, 5,
          [attemptErrorMsg 1 2 "timeout", attemptErrorMsg 2 2 "timeout"]⟩
    ∧ ¬ (40 : Rat) = 1 := by
  constructor
  · rw [check_and_sweep_trx_increase ⟨30, 1, 2, 5, true, false⟩ [] 1
      ⟨Except.ok 40, Except.ok 40, fun _ => Except.error "timeout"⟩ 40 40 rfl
      (by norm_num)
      (by norm_num [calculate_sweepable_trx_amount, estimate_energy_cost]) rfl]
    rw [retryTransfer_all_fail 2 5 (fun _ => Except.error "timeout")
      (fun _ => "timeout") (fun i h1 h2 => rfl)]
    norm_num [List.range_succ]
  · norm_num

/-- C3 amended: when every transfer attempt for an asset fails (and the
native path's finally re-query succeeds), the cached last-known balance is
still advanced after the attempt sequence completes: the native path
stores the balance re-queried by its finally block (equal to C when the
chain is quiescent), and the token path stores C, so a later cycle
observing the same balance does not re-detect the increase. -/
theorem failed_sweep_advances_cache :
    (∀ (cfg : Config) (tcs : List String) (last : Rat) (env : TrxEnv) (fin c : Rat)
        (em : Nat → String),
        env.query = Except.ok c → last < c →
        0 < calculate_sweepable_trx_amount cfg tcs c (cfg.sweep_trc20 && !tcs.isEmpty) →
        env.finalQuery = Except.ok fin →
        (∀ i, 1 ≤ i → i ≤ cfg.max_retries → env.transfer i = Except.error (em i)) →
        ∃ r : TrxSweepResult, check_and_sweep_trx cfg tcs last env = Except.ok r
          ∧ r.result = none ∧ r.new_last = fin)
    ∧ (∀ (cfg : Config) (row : Option TokenCfgRow) (env : TokenEnv) (last c : Rat)
        (s : String) (em : Nat → String),
        env.infoQuery = Except.ok s → env.balanceQuery = Except.ok c → last < c →
        rowEnabled row = true →
        (∀ i, 1 ≤ i → i ≤ cfg.max_retries → env.transfer i = Except.error (em i)) →
        (processToken cfg row env last).result = none
        ∧ (processToken cfg row env last).newBal = some c) := by
  constructor
  · intro cfg tcs last env fin c em hq hlt hsw hfin hf
    rw [check_and_sweep_trx_increase cfg tcs last env fin c hq hlt hsw hfin,
      retryTransfer_all_fail cfg.max_retries cfg.retry_delay env.transfer em hf]
    exact ⟨_, rfl, rfl, rfl⟩
  · intro cfg row env last c s em hi hb hlt hen hf
    exact processToken_increase_all_fail cfg row env last c s em hi hb hlt hen hf

/-- C3 witness: the amended statement evaluated on a native run with
balance 2 rising to 50 and a token run with balance 3 rising to 7, both
with always-failing transfers. -/
theorem failed_sweep_advances_cache_witness :
    (∃ r : TrxSweepResult,
        check_and_sweep_trx ⟨30, 1, 2, 5, true, false⟩ [] 2
          ⟨Except.ok 50, Except.ok 50, fun _ => Except.error "dns"⟩ = Except.ok r
        ∧ r.result = none ∧ r.new_last = 50)
    ∧ ((processToken ⟨30, 1, 2, 5, true, true⟩ none
        ⟨Except.ok "USDT", Except.ok 7, fun _ => Except.error "dns"⟩ 3).result = none
      ∧ (processToken ⟨30, 1, 2, 5, true, true⟩ none
        ⟨Except.ok "USDT", Except.ok 7, fun _ => Except.error "dns"⟩ 3).newBal = some 7) := by
  constructor
  · exact failed_sweep_advances_cache.1 ⟨30, 1, 2, 5, true, false⟩ [] 2
      ⟨Except.ok 50, Except.ok 50, fun _ => Except.error "dns"⟩ 50 50 (fun _ => "dns") rfl
      (by norm_num)
      (by norm_num [calculate_sweepable_trx_amount, estimate_energy_cost])
      rfl (fun i h1 h2 => rfl)
  · exact failed_sweep_advances_cache.2 ⟨30, 1, 2, 5, true, true⟩ none
      ⟨Except.ok "USDT", Except.ok 7, fun _ => Except.error "dns"⟩ 3 7 "USDT"
      (fun _ => "dns") rfl rfl (by norm_num) rfl (fun i h1 h2 => rfl)

/-- C4 counterexample: a monitored token whose cached balance is 10 and
whose fresh balance is 5 (C below L) is skipped without any transfer, but
the cached balance stays 10 instead of being updated to 5. -/
theorem token_downward_update_counterexample :
    (check_and_sweep_tokens ⟨30, 0, 2, 5, true, true⟩ ["T"] (fun _ => none)
        (fun _ => ⟨Except.ok "S", Except.ok 5, fun _ => Except.error "e"⟩)
        [("T", 10)]).1 = []
    ∧ getBal (check_and_sweep_tokens ⟨30, 0, 2, 5, true, true⟩ ["T"] (fun _ => none)
        (fun _ => ⟨Except.ok "S", Except.ok 5, fun _ => Except.error "e"⟩)
        [("T", 10)]).2 "T" = 10
    ∧ ¬ getBal (check_and_sweep_tokens ⟨30, 0, 2, 5, true, true⟩ ["T"] (fun _ => none)
        (fun _ => ⟨Except.ok "S", Except.ok 5, fun _ => Except.error "e"⟩)
        [("T", 10)]).2 "T" = 5 := by
  have hg : getBal [("T", (10 : Rat))] "T" = 10 := by
    simp [getBal, List.lookup]
  have hstep := processToken_no_increase ⟨30, 0, 2, 5, true, true⟩ none
    ⟨Except.ok "S", Except.ok 5, fun _ => Except.error "e"⟩ 10 5 rfl (by norm_num)
  have hrun : check_and_sweep_tokens ⟨30, 0, 2, 5, true, true⟩ ["T"] (fun _ => none)
      (fun _ => ⟨Except.ok "S", Except.ok 5, fun _ => Except.error "e"⟩)
      [("T", 10)] = ([], [("T", 10)]) := by
    unfold check_and_sweep_tokens sweepTokensGo
    simp [hg, hstep, sweepTokensGo]
  rw [hrun]
  refine ⟨rfl, hg, ?_⟩
  rw [hg]
  norm_num

/-- C4 amended: when the fresh balance C does not exceed the cached balance
L, no transfer is attempted for either kind of asset; the native path still
updates the cache to the re-queried balance (C for a quiescent chain), but
the token path leaves the cache untouched, so token balances are never
updated downward. -/
theorem no_increase_no_transfer :
    (∀ (cfg : Config) (tcs : List String) (last : Rat) (env : TrxEnv) (fin c : Rat),
        env.query = Except.ok c → c ≤ last →
        env.finalQuery = Except.ok fin →
        check_and_sweep_trx cfg tcs last env = Except.ok ⟨none, fin, 0, 0, []⟩)
    ∧ (∀ (cfg : Config) (row : Option TokenCfgRow) (env : TokenEnv) (last c : Rat),
        env.balanceQuery = Except.ok c → c ≤ last →
        processToken cfg row env last = ⟨none, none, 0⟩) := by
  constructor
  · intro cfg tcs last env fin c hq hle hfin
    exact check_and_sweep_trx_no_increase cfg tcs last env fin c hq hle hfin
  · intro cfg row env last c hb hle
    exact processToken_no_increase cfg row env last c hb hle

/-- C4 witness: the amended statement evaluated on a native balance
holding steady at 8 and a token balance dropping from 9 to 4. -/
theorem no_increase_no_transfer_witness :
    check_and_sweep_trx ⟨30, 1, 3, 5, true, false⟩ [] 8
        ⟨Except.ok 8, Except.ok 8, fun _ => Except.error "e"⟩
      = Except.ok ⟨none, 8, 0, 0, []⟩
    ∧ processToken ⟨30, 1, 3, 5, true, true⟩ none
        ⟨Except.ok "S", Except.ok 4, fun _ => Except.error "e"⟩ 9 = ⟨none, none, 0⟩ := by
  constructor
  · exact no_increase_no_transfer.1 ⟨30, 1, 3, 5, true, false⟩ [] 8
      ⟨Except.ok 8, Except.ok 8, fun _ => Except.error "e"⟩ 8 8 rfl (by norm_num) rfl
  · exact no_increase_no_transfer.2 ⟨30, 1, 3, 5, true, true⟩ none
      ⟨Except.ok "S", Except.ok 4, fun _ => Except.error "e"⟩ 9 4 rfl (by norm_num)

/-- Token pass with token sweeping disabled: nothing happens. -/
theorem check_and_sweep_tokens_disabled (cfg : Config) (tcs : List String)
    (rows : String → Option TokenCfgRow) (envOf : String → TokenEnv)
    (bal : List (String × Rat)) (h : cfg.sweep_trc20 = false) :
    check_and_sweep_tokens cfg tcs rows envOf bal = ([], bal) := by
  unfold check_and_sweep_tokens
  simp [h]

/-- C10: a max retry count of 0 passes validation, yet then a detected
balance increase with a positive sweepable amount performs zero transfer
attempts, produces no outcome and logs no attempt error, and a cycle with
only the native asset enabled reports nothing at all. -/
theorem zero_max_retries_silent :
    (∀ (cfg : Config) (tcs : List String) (last : Rat) (env : TrxEnv) (fin c : Rat),
        cfg.max_retries = 0 → env.query = Except.ok c → last < c →
        0 < calculate_sweepable_trx_amount cfg tcs c (cfg.sweep_trc20 && !tcs.isEmpty) →
        env.finalQuery = Except.ok fin →
        check_and_sweep_trx cfg tcs last env = Except.ok ⟨none, fin, 0, 0, []⟩)
    ∧ (∀ (cfg : Config) (tcs : List String) (rows : String → Option TokenCfgRow)
        (trxEnv : TrxEnv) (envOf : String → TokenEnv) (last : Rat)
        (bal : List (String × Rat)) (fin : Rat),
        cfg.max_retries = 0 → cfg.sweep_trc20 = false →
        trxEnv.finalQuery = Except.ok fin →
        ∃ cy : CycleResult,
          check_and_sweep cfg tcs rows trxEnv envOf last bal = Except.ok cy
          ∧ cy.results = [] ∧ cy.ret = SweepReturn.noResult)
    ∧ (∀ (ci : Int) (m : Rat) (rd : Int) (b1 b2 : Bool), 1 ≤ ci → 0 ≤ m → 1 ≤ rd →
        validationOk (validateConfig ci m 0 rd b1 b2) = true) := by
  refine ⟨?_, ?_, ?_⟩
  · intro cfg tcs last env fin c h0 hq hlt hsw hfin
    exact check_and_sweep_trx_zero_retries cfg tcs last env fin h0 hfin
  · intro cfg tcs rows trxEnv envOf last bal fin h0 htok hfin
    have htrx := check_and_sweep_trx_zero_retries cfg tcs last trxEnv fin h0 hfin
    have htokens := check_and_sweep_tokens_disabled cfg tcs rows envOf bal htok
    unfold check_and_sweep
    cases hb : cfg.sweep_trx with
    | false =>
      refine ⟨_, rfl, ?_, ?_⟩ <;> simp [htokens, listToSweepReturn]
    | true =>
      rw [if_pos rfl, htrx]
      refine ⟨_, rfl, ?_, ?_⟩ <;> simp [htokens, listToSweepReturn]
  · intro ci m rd b1 b2 hci hm hrd
    unfold validateConfig
    rw [if_neg (by omega), if_neg (not_lt.mpr hm), if_neg (by omega), if_neg (by omega)]
    rfl

/-- C10 witness: with max_retries 0 accepted by validation, a balance rise
from 0 to 100 yields zero attempts, no outcome and an empty cycle
report. -/
theorem zero_max_retries_silent_witness :
    check_and_sweep_trx ⟨30, 1, 0, 5, true, false⟩ [] 0
        ⟨Except.ok 100, Except.ok 100, fun _ => Except.error "x"⟩
      = Except.ok ⟨none, 100, 0, 0, []⟩
    ∧ (∃ cy : CycleResult,
        check_and_sweep ⟨30, 1, 0, 5, true, false⟩ [] (fun _ => none)
          ⟨Except.ok 100, Except.ok 100, fun _ => Except.error "x"⟩
          (fun _ => ⟨Except.ok "S", Except.ok 0, fun _ => Except.error "x"⟩) 0 []
          = Except.ok cy
        ∧ cy.results = [] ∧ cy.ret = SweepReturn.noResult)
    ∧ validationOk (validateConfig 30 1 0 5 true false) = true := by
  refine ⟨?_, ?_, ?_⟩
  · exact zero_max_retries_silent.1 ⟨30, 1, 0, 5, true, false⟩ [] 0
      ⟨Except.ok 100, Except.ok 100, fun _ => Except.error "x"⟩ 100 100 rfl rfl
      (by norm_num)
      (by norm_num [calculate_sweepable_trx_amount, estimate_energy_cost]) rfl
  · exact zero_max_retries_silent.2.1 ⟨30, 1, 0, 5, true, false⟩ [] (fun _ => none)
      ⟨Except.ok 100, Except.ok 100, fun _ => Except.error "x"⟩
      (fun _ => ⟨Except.ok "S", Except.ok 0, fun _ => Except.error "x"⟩) 0 [] 100
      rfl rfl rfl
  · exact zero_max_retries_silent.2.2 30 1 5 true false (by omega) (by norm_num) (by omega)

/-- Cache reads after a write: the written key reads the new value, other
keys are untouched. -/
theorem getBal_setBal (bal : List (String × Rat)) (u : String) (c : Rat) (t : String) :
    getBal (setBal bal u c) t = if t = u then c else getBal bal t := by
  unfold getBal setBal
  by_cases h : t = u
  · simp [h, List.lookup]
  · have hb : (t == u) = false := beq_eq_false_iff_ne.mpr h
    simp [List.lookup, hb, h]

/-- With pairwise-distinct contracts, the token fold returns exactly the
per-token outcomes computed independently from each token's own starting
cache entry, in configured order. -/
theorem sweepTokensGo_results (cfg : Config) (rows : String → Option TokenCfgRow)
    (envOf : String → TokenEnv) :
    ∀ (ts : List String) (bal : List (String × Rat)), ts.Nodup →
      (sweepTokensGo cfg rows envOf ts bal).1
        = ts.filterMap
            (fun t => (processToken cfg (rows t) (envOf t) (getBal bal t)).result) := by
  intro ts
  induction ts with
  | nil => intro bal h; rfl
  | cons t rest ih =>
    intro bal hnd
    have hnotin : t ∉ rest := (List.nodup_cons.mp hnd).1
    have hnd2 : rest.Nodup := (List.nodup_cons.mp hnd).2
    unfold sweepTokensGo
    cases hstep : (processToken cfg (rows t) (envOf t) (getBal bal t)).newBal with
    | none =>
      simp only [hstep]
      rw [ih bal hnd2, List.filterMap_cons]
      cases hres : (processToken cfg (rows t) (envOf t) (getBal bal t)).result <;>
        simp [hres]
    | some c =>
      simp only [hstep]
      rw [ih (setBal bal t c) hnd2]
      have hcong : rest.filterMap
            (fun u => (processToken cfg (rows u) (envOf u) (getBal (setBal bal t c) u)).result)
          = rest.filterMap
            (fun u => (processToken cfg (rows u) (envOf u) (getBal bal u)).result) := by
        apply List.filterMap_congr
        intro u hu
        have hne : u ≠ t := fun he => hnotin (he ▸ hu)
        rw [getBal_setBal, if_neg hne]
      rw [hcong, List.filterMap_cons]
      cases hres : (processToken cfg (rows t) (envOf t) (getBal bal t)).result <;>
        simp [hres]

/-- With pairwise-distinct contracts, the token pass returns the
independent per-token outcomes (empty when token sweeping is off). -/
theorem check_and_sweep_tokens_results (cfg : Config) (tcs : List String)
    (rows : String → Option TokenCfgRow) (envOf : String → TokenEnv)
    (bal : List (String × Rat)) (hnd : tcs.Nodup) :
    (check_and_sweep_tokens cfg tcs rows envOf bal).1
      = if cfg.sweep_trc20
          then tcs.filterMap
            (fun t => (processToken cfg (rows t) (envOf t) (getBal bal t)).result)
          else [] := by
  unfold check_and_sweep_tokens
  cases hk : cfg.sweep_trc20 with
  | false => simp
  | true =>
    cases tcs with
    | nil => simp
    | cons t rest =>
      simp only [Bool.not_true, Bool.false_eq_true, if_false, List.isEmpty_cons,
        if_true]
      rw [sweepTokensGo_results cfg rows envOf (t :: rest) bal hnd]

/-- Applicable minimum for a token: the row override when present,
otherwise zero. -/
def minTransferOf : Option TokenCfgRow → Rat
  | some r => r.min_amount.getD 0
  | none => 0

/-- Path lemma: an increased token balance above the applicable minimum
whose first transfer attempt succeeds yields that outcome and writes the
current balance to the cache. -/
theorem processToken_increase_first_ok (cfg : Config) (row : Option TokenCfgRow)
    (env : TokenEnv) (last c : Rat) (s : String) (t : TxResult)
    (hi : env.infoQuery = Except.ok s) (hb : env.balanceQuery = Except.ok c)
    (hlt : last < c) (hen : rowEnabled row = true)
    (hmin : minTransferOf row < c) (h1 : env.transfer 1 = Except.ok t)
    (hmr : 1 ≤ cfg.max_retries) :
    (processToken cfg row env last).result = some t
    ∧ (processToken cfg row env last).newBal = some c := by
  have hfirst := retryAux_first_success cfg.max_retries cfg.retry_delay env.transfer t 1
    cfg.max_retries 1 (by omega) le_rfl hmr
    (fun i hi1 hi2 => absurd hi2 (by omega)) h1
  cases row with
  | none =>
    unfold processToken processTokenActive
    simp only [hi, hb]
    rw [if_neg (not_le.mpr hlt)]
    have hmin2 : (0 : Rat) < c := by simpa [minTransferOf] using hmin
    rw [if_pos hmin2]
    exact ⟨hfirst.1, rfl⟩
  | some r =>
    have hr : r.enabled = true := by simpa [rowEnabled] using hen
    unfold processToken processTokenActive
    simp only [hr, Bool.not_true, Bool.false_eq_true, if_false, hi, hb]
    rw [if_neg (not_le.mpr hlt)]
    have hmin2 : r.min_amount.getD 0 < c := by simpa [minTransferOf] using hmin
    rw [if_pos hmin2]
    exact ⟨hfirst.1, rfl⟩

/-- C6 counterexample: the native path's finally-block balance re-query
raises, the exception escapes check_and_sweep_trx and check_and_sweep has
no try/except, so the cycle aborts with that exception before any token is
checked — even though the configured token, processed on its own, would
have been swept. -/
theorem asset_failure_isolation_counterexample :
    check_and_sweep ⟨30, 0, 2, 5, true, true⟩ ["B"] (fun _ => none)
        ⟨Except.ok 100, Except.error "rpc down", fun _ => Except.error "net"⟩
        (fun _ => ⟨Except.ok "S", Except.ok 5, fun _ => Except.ok ⟨"tx"⟩⟩) 0 []
      = Except.error "rpc down"
    ∧ (processToken ⟨30, 0, 2, 5, true, true⟩ none
        ⟨Except.ok "S", Except.ok 5, fun _ => Except.ok ⟨"tx"⟩⟩
        (getBal [] "B")).result = some ⟨"tx"⟩ := by
  constructor
  · unfold check_and_sweep
    rw [check_and_sweep_trx_final_raises ⟨30, 0, 2, 5, true, true⟩ ["B"] 0
      ⟨Except.ok 100, Except.error "rpc down", fun _ => Except.error "net"⟩
      "rpc down" rfl]
    rw [if_pos rfl]
  · have hg : getBal ([] : List (String × Rat)) "B" = 0 := by simp [getBal]
    rw [hg]
    exact (processToken_increase_first_ok ⟨30, 0, 2, 5, true, true⟩ none
      ⟨Except.ok "S", Except.ok 5, fun _ => Except.ok ⟨"tx"⟩⟩ 0 5 "S" ⟨"tx"⟩
      rfl rfl (by norm_num) rfl (by norm_num [minTransferOf]) rfl (by decide)).1

/-- C6 amended: when the native path's finally-block balance re-query
succeeds, the cycle completes, and (with pairwise-distinct contracts) its
result list is the native outcome (possibly absent, in particular after
exhausted retries or a caught exception) followed by the outcome of every
configured token computed independently from that token's own row,
environment and cache entry — so apart from a raising finally re-query,
which aborts the whole cycle, no asset's failure can suppress the
processing of any other asset in the same cycle. -/
theorem asset_failure_isolation :
    ∀ (cfg : Config) (tcs : List String) (rows : String → Option TokenCfgRow)
      (trxEnv : TrxEnv) (envOf : String → TokenEnv) (last : Rat)
      (bal : List (String × Rat)) (fin : Rat), tcs.Nodup →
      trxEnv.finalQuery = Except.ok fin →
      ∃ cy : CycleResult,
        check_and_sweep cfg tcs rows trxEnv envOf last bal = Except.ok cy
        ∧ cy.results
            = (if cfg.sweep_trx
                then (check_and_sweep_trx_body cfg tcs last trxEnv fin).result
                else none).toList
              ++ (if cfg.sweep_trc20
                  then tcs.filterMap
                    (fun t => (processToken cfg (rows t) (envOf t) (getBal bal t)).result)
                  else []) := by
  intro cfg tcs rows trxEnv envOf last bal fin hnd hfin
  have htok := check_and_sweep_tokens_results cfg tcs rows envOf bal hnd
  unfold check_and_sweep
  cases hx : cfg.sweep_trx with
  | false =>
    refine ⟨_, rfl, ?_⟩
    simpa using htok
  | true =>
    unfold check_and_sweep_trx
    rw [if_pos rfl]
    simp only [hfin]
    refine ⟨_, rfl, ?_⟩
    simpa using htok

/-- C6 witness: the amended isolation statement evaluated on a cycle
where the native sweep exhausts its retries (the finally re-query
succeeding), token A has not increased, and token B is swept: the cycle
completes and still reports B's outcome. -/
theorem asset_failure_isolation_witness :
    ∃ cy : CycleResult,
      check_and_sweep ⟨30, 0, 2, 5, true, true⟩ ["A", "B"] (fun _ => none)
          ⟨Except.ok 100, Except.ok 100, fun _ => Except.error "net"⟩
          (fun _ => ⟨Except.ok "S", Except.ok 5, fun _ => Except.ok ⟨"tx"⟩⟩)
          0 [("A", 9)] = Except.ok cy
      ∧ cy.results = [⟨"tx"⟩] := by
  obtain ⟨cy, hcy, hres⟩ := asset_failure_isolation ⟨30, 0, 2, 5, true, true⟩ ["A", "B"]
    (fun _ => none) ⟨Except.ok 100, Except.ok 100, fun _ => Except.error "net"⟩
    (fun _ => ⟨Except.ok "S", Except.ok 5, fun _ => Except.ok ⟨"tx"⟩⟩)
    0 [("A", 9)] 100 (by simp) rfl
  refine ⟨cy, hcy, ?_⟩
  rw [hres]
  have htrx : (check_and_sweep_trx_body ⟨30, 0, 2, 5, true, true⟩ ["A", "B"] 0
      ⟨Except.ok 100, Except.ok 100, fun _ => Except.error "net"⟩ 100).result = none := by
    rw [check_and_sweep_trx_body_increase ⟨30, 0, 2, 5, true, true⟩ ["A", "B"] 0
      ⟨Except.ok 100, Except.ok 100, fun _ => Except.error "net"⟩ 100 100 rfl (by norm_num)
      (by norm_num [calculate_sweepable_trx_amount, estimate_energy_cost])]
    rw [retryTransfer_all_fail 2 5 (fun _ => Except.error "net") (fun _ => "net")
      (fun i h1 h2 => rfl)]
  have hgA : getBal [("A", (9 : Rat))] "A" = 9 := by simp [getBal, List.lookup]
  have hgB : getBal [("A", (9 : Rat))] "B" = 0 := by simp [getBal, List.lookup]
  have hA : processToken ⟨30, 0, 2, 5, true, true⟩ none
      ⟨Except.ok "S", Except.ok 5, fun _ => Except.ok ⟨"tx"⟩⟩ 9 = ⟨none, none, 0⟩ :=
    processToken_no_increase ⟨30, 0, 2, 5, true, true⟩ none
      ⟨Except.ok "S", Except.ok 5, fun _ => Except.ok ⟨"tx"⟩⟩ 9 5 rfl (by norm_num)
  have hB : (processToken ⟨30, 0, 2, 5, true, true⟩ none
      ⟨Except.ok "S", Except.ok 5, fun _ => Except.ok ⟨"tx"⟩⟩ 0).result = some ⟨"tx"⟩ :=
    (processToken_increase_first_ok ⟨30, 0, 2, 5, true, true⟩ none
      ⟨Except.ok "S", Except.ok 5, fun _ => Except.ok ⟨"tx"⟩⟩ 0 5 "S" ⟨"tx"⟩
      rfl rfl (by norm_num) rfl (by norm_num [minTransferOf]) rfl (by decide)).1
  simp only [List.filterMap_cons, List.filterMap_nil, hgA, hgB, hA, hB, htrx]
  simp

/-- C7 counterexample: a cycle in which nothing is swept returns the
distinguished no-result value, not an empty sequence of outcomes. -/
theorem cycle_sequence_counterexample :
    check_and_sweep ⟨30, 1, 3, 5, true, false⟩ [] (fun _ => none)
        ⟨Except.ok 5, Except.ok 5, fun _ => Except.error "e"⟩
        (fun _ => ⟨Except.ok "S", Except.ok 0, fun _ => Except.error "e"⟩) 5 []
      = Except.ok ⟨[], SweepReturn.noResult, 5, []⟩
    ∧ ¬ check_and_sweep ⟨30, 1, 3, 5, true, false⟩ [] (fun _ => none)
        ⟨Except.ok 5, Except.ok 5, fun _ => Except.error "e"⟩
        (fun _ => ⟨Except.ok "S", Except.ok 0, fun _ => Except.error "e"⟩) 5 []
      = Except.ok ⟨[], SweepReturn.multiple [], 5, []⟩ := by
  have htrx := check_and_sweep_trx_no_increase ⟨30, 1, 3, 5, true, false⟩ [] 5
    ⟨Except.ok 5, Except.ok 5, fun _ => Except.error "e"⟩ 5 5 rfl le_rfl rfl
  have htok := check_and_sweep_tokens_disabled ⟨30, 1, 3, 5, true, false⟩ [] (fun _ => none)
    (fun _ => ⟨Except.ok "S", Except.ok 0, fun _ => Except.error "e"⟩) [] rfl
  have hmain : check_and_sweep ⟨30, 1, 3, 5, true, false⟩ [] (fun _ => none)
      ⟨Except.ok 5, Except.ok 5, fun _ => Except.error "e"⟩
      (fun _ => ⟨Except.ok "S", Except.ok 0, fun _ => Except.error "e"⟩) 5 []
      = Except.ok ⟨[], SweepReturn.noResult, 5, []⟩ := by
    unfold check_and_sweep
    rw [if_pos rfl, htrx, htok]
    rfl
  refine ⟨hmain, ?_⟩
  rw [hmain]
  simp

/-- C7 amended: when the native path's finally re-query succeeds the cycle
completes, accumulating successful outcomes in order (native first, then
the token pass over the configured list), and returns None when that list
is empty, the lone outcome itself when it has exactly one element, and the
list when it has several. -/
theorem cycle_return_shape :
    ∀ (cfg : Config) (tcs : List String) (rows : String → Option TokenCfgRow)
      (trxEnv : TrxEnv) (envOf : String → TokenEnv) (last : Rat)
      (bal : List (String × Rat)) (fin : Rat),
      trxEnv.finalQuery = Except.ok fin →
      ∃ cy : CycleResult,
        check_and_sweep cfg tcs rows trxEnv envOf last bal = Except.ok cy
        ∧ cy.results
            = (if cfg.sweep_trx
                then (check_and_sweep_trx_body cfg tcs last trxEnv fin).result
                else none).toList
              ++ (check_and_sweep_tokens cfg tcs rows envOf bal).1
        ∧ cy.ret = listToSweepReturn cy.results
        ∧ (cy.results = [] → cy.ret = SweepReturn.noResult)
        ∧ (∀ t, cy.results = [t] → cy.ret = SweepReturn.single t)
        ∧ (∀ t1 t2 ts, cy.results = t1 :: t2 :: ts →
            cy.ret = SweepReturn.multiple (t1 :: t2 :: ts)) := by
  intro cfg tcs rows trxEnv envOf last bal fin hfin
  unfold check_and_sweep
  cases hx : cfg.sweep_trx with
  | false =>
    refine ⟨_, rfl, by simp, rfl, ?_, ?_, ?_⟩
    · intro h
      simp only [CycleResult.ret]
      rw [show ((none : Option TxResult).toList
          ++ (check_and_sweep_tokens cfg tcs rows envOf bal).1) = [] from h]
      rfl
    · intro t h
      simp only [CycleResult.ret]
      rw [show ((none : Option TxResult).toList
          ++ (check_and_sweep_tokens cfg tcs rows envOf bal).1) = [t] from h]
      rfl
    · intro t1 t2 ts h
      simp only [CycleResult.ret]
      rw [show ((none : Option TxResult).toList
          ++ (check_and_sweep_tokens cfg tcs rows envOf bal).1) = t1 :: t2 :: ts from h]
      rfl
  | true =>
    unfold check_and_sweep_trx
    rw [if_pos rfl]
    simp only [hfin]
    refine ⟨_, rfl, rfl, rfl, ?_, ?_, ?_⟩
    · intro h
      simp only [CycleResult.ret]
      rw [show ((check_and_sweep_trx_body cfg tcs last trxEnv fin).result.toList
          ++ (check_and_sweep_tokens cfg tcs rows envOf bal).1) = [] from h]
      rfl
    · intro t h
      simp only [CycleResult.ret]
      rw [show ((check_and_sweep_trx_body cfg tcs last trxEnv fin).result.toList
          ++ (check_and_sweep_tokens cfg tcs rows envOf bal).1) = [t] from h]
      rfl
    · intro t1 t2 ts h
      simp only [CycleResult.ret]
      rw [show ((check_and_sweep_trx_body cfg tcs last trxEnv fin).result.toList
          ++ (check_and_sweep_tokens cfg tcs rows envOf bal).1) = t1 :: t2 :: ts from h]
      rfl

/-- C7 witness: the shape statement evaluated on a cycle where nothing is
swept, applying its empty case. -/
theorem cycle_return_shape_witness :
    ∃ cy : CycleResult,
      check_and_sweep ⟨30, 1, 3, 5, true, false⟩ [] (fun _ => none)
          ⟨Except.ok 7, Except.ok 7, fun _ => Except.error "w"⟩
          (fun _ => ⟨Except.ok "S", Except.ok 0, fun _ => Except.error "w"⟩) 7 []
        = Except.ok cy
      ∧ cy.ret = SweepReturn.noResult := by
  obtain ⟨cy, hcy, hres, hret, hempty, hsingle, hmulti⟩ := cycle_return_shape
    ⟨30, 1, 3, 5, true, false⟩ [] (fun _ => none)
    ⟨Except.ok 7, Except.ok 7, fun _ => Except.error "w"⟩
    (fun _ => ⟨Except.ok "S", Except.ok 0, fun _ => Except.error "w"⟩) 7 [] 7 rfl
  refine ⟨cy, hcy, hempty ?_⟩
  rw [hres]
  rw [check_and_sweep_trx_body_no_increase ⟨30, 1, 3, 5, true, false⟩ [] 7
    ⟨Except.ok 7, Except.ok 7, fun _ => Except.error "w"⟩ 7 7 rfl le_rfl]
  rw [check_and_sweep_tokens_disabled ⟨30, 1, 3, 5, true, false⟩ [] (fun _ => none)
    (fun _ => ⟨Except.ok "S", Except.ok 0, fun _ => Except.error "w"⟩) [] rfl]
  simp

end TronSweeper
